import Mathlib

/-!
Shallow embedding of the drpc client interceptor layer.

The repository contains two near-duplicate implementations of the same design:

* variant A, package drcpclient (src/drcpclient/clientconn.go): the ClientConn
  wrapper together with its DialOptions compiler (chainUnaryClientInterceptors,
  chainStreamClientInterceptors, newDialOptions);
* variant B, packages drcpclientconn and drpcinterceptors (src/unnamed/part_001):
  the same design with exported chain compilers (ChainUnaryClientInterceptors,
  ChainStreamClientInterceptors), NewDialOptions, and compilation performed at
  wrapper construction time by ClientConn.initInterceptors.

Go side effects (writing through the out-message pointer, appending to a test
recording slice) are modelled by threading an explicit state of type sigma
through every invoker, streamer and interceptor.  A Go error value is an
Option Err (none = nil error).  The drpc.Conn interface consumed from the
external storj.io/drpc dependency is modelled by the record RawConn of its
operations.  Go interface values passed opaquely to interceptors (the cc /
conn drpc.Conn argument) are modelled by the identity type Handle, with
Handle.wrapper standing for the ClientConn wrapper value c and Handle.raw
standing for the embedded underlying connection.
-/

namespace Drpc

/-- Opaque context value (context.Context is only ever passed through). -/
abbrev Ctx := Nat

/-- RPC method name. -/
abbrev Rpc := String

/-- Opaque encoding value (drpc.Encoding is passed through untouched). -/
abbrev Enc := Nat

/-- Opaque request message value (the in drpc.Message argument). -/
abbrev Msg := Nat

/-- Error code; a Go error value is Option Err with none for nil. -/
abbrev Err := Nat

/-- Opaque stream handle (drpc.Stream). -/
abbrev Stream := Nat

/-- Result of opening a stream: the (drpc.Stream, error) pair. -/
abbrev StreamRes := Option Stream × Option Err

/-- Identity of a Go drpc.Conn interface value as seen by an interceptor:
either the raw embedded connection or the wrapping ClientConn. -/
inductive Handle where
  | raw
  | wrapper
deriving DecidableEq

/-- Events that test interceptors record into the threaded state. -/
inductive Ev where
  | before (i : Nat)
  | after (i : Nat)
  | handle (h : Handle)
deriving DecidableEq

/-- Recording state used by the concrete test interceptors: a trace of events,
mirroring the interceptorCalls slice of the repository's tests. -/
abbrev Tr := List Ev

/-- The underlying connection collaborator (the external drpc.Conn interface):
its unary invoke, stream open, and remaining surface (Close, Closed,
Transport), each threaded through the state. -/
structure RawConn (σ : Type) where
  invoke : Ctx → Rpc → Enc → Msg → σ → σ × Option Err
  newStream : Ctx → Rpc → Enc → σ → σ × StreamRes
  close : σ → σ × Option Err
  closed : σ → σ × Bool
  transport : Nat

end Drpc

namespace DrpcClient

/-! Variant A: package drcpclient (src/drcpclient/clientconn.go). -/

open Drpc

/-- UnaryInvoker: func(ctx, rpc, enc, in, out) error.  The out pointer is part
of the threaded state. -/
abbrev UnaryInvoker (σ : Type) := Ctx → Rpc → Enc → Msg → σ → σ × Option Err

/-- UnaryClientInterceptor: func(ctx, rpc, enc, in, out, cc, next) error, with
the conn handle of opaque type kappa. -/
abbrev UnaryClientInterceptor (σ κ : Type) :=
  Ctx → Rpc → Enc → Msg → κ → UnaryInvoker σ → σ → σ × Option Err

/-- Streamer: func(ctx, rpc, enc) (drpc.Stream, error). -/
abbrev Streamer (σ : Type) := Ctx → Rpc → Enc → σ → σ × StreamRes

/-- StreamClientInterceptor: func(ctx, rpc, enc, conn, streamer) (drpc.Stream, error). -/
abbrev StreamClientInterceptor (σ κ : Type) :=
  Ctx → Rpc → Enc → κ → Streamer σ → σ → σ × StreamRes

/-- DialOptions of package drcpclient: the two interceptor lists and the two
compiled (nilable, hence Option) chained interceptors. -/
structure DialOptions (σ κ : Type) where
  chainedUnaryInt : Option (UnaryClientInterceptor σ κ)
  unaryInts : List (UnaryClientInterceptor σ κ)
  chainedStreamInt : Option (Ctx → Rpc → Enc → κ → Streamer σ → σ → Option (σ × StreamRes))
  streamInts : List (StreamClientInterceptor σ κ)

/-- The zero DialOptions value produced by the composite literal in
newDialOptions. -/
def DialOptions.zero (σ κ : Type) : DialOptions σ κ := ⟨none, [], none, []⟩

/-- DialOption: a configuration mutator applied to a DialOptions value. -/
abbrev DialOption (σ κ : Type) := DialOptions σ κ → DialOptions σ κ

/-- WithChainUnaryInterceptor appends the given interceptors to the unary list. -/
def WithChainUnaryInterceptor (ints : List (UnaryClientInterceptor σ κ)) :
    DialOption σ κ :=
  fun opt => ⟨opt.chainedUnaryInt, opt.unaryInts ++ ints,
    opt.chainedStreamInt, opt.streamInts⟩

/-- WithChainStreamInterceptor appends the given interceptors to the stream list. -/
def WithChainStreamInterceptor (ints : List (StreamClientInterceptor σ κ)) :
    DialOption σ κ :=
  fun opt => ⟨opt.chainedUnaryInt, opt.unaryInts,
    opt.chainedStreamInt, opt.streamInts ++ ints⟩

/-- The loop of chainUnaryClientInterceptors: starting from the terminal
invoker, for i from n-1 down to 0 wrap d.unaryInts with index i around the
previously built continuation.  Iterating i = n-1 .. 0 over the whole list is
exactly a right fold over that list. -/
def chainUnaryFold (ints : List (UnaryClientInterceptor σ κ)) (conn : κ)
    (invoker : UnaryInvoker σ) : UnaryInvoker σ :=
  List.foldr
    (fun interceptor chained =>
      fun ctx rpc enc inm => interceptor ctx rpc enc inm conn chained)
    invoker ints

/-- chainUnaryClientInterceptors of package drcpclient: unconditionally sets
chainedUnaryInt to the chaining closure (there is no switch on the length,
so the field is non-nil even for an empty list, although the function's own
doc comment promises nil in that case). -/
def DialOptions.chainUnaryClientInterceptors (d : DialOptions σ κ) :
    DialOptions σ κ :=
  ⟨some (fun ctx rpc enc inm conn invoker =>
      chainUnaryFold d.unaryInts conn invoker ctx rpc enc inm),
    d.unaryInts, d.chainedStreamInt, d.streamInts⟩

/-- One wrapping step of the stream chain loop: the closure capturing one
interceptor and the previously built continuation. -/
def wrapStream (interceptor : StreamClientInterceptor σ κ) (conn : κ)
    (next : Streamer σ) : Streamer σ :=
  fun ctx rpc enc => interceptor ctx rpc enc conn next

/-- The loop body of chainStreamClientInterceptors, reading d.streamInts at the
given index list (the head index becomes the outermost layer, so the indices
are built innermost-first exactly as the Go loop runs i = n-1 down to 0).
Indexing out of range is a Go runtime panic, modelled by none. -/
def buildStreamChain (ints : List (StreamClientInterceptor σ κ)) (conn : κ)
    (streamer : Streamer σ) : List Nat → Option (Streamer σ)
  | [] => some streamer
  | i :: rest =>
    match buildStreamChain ints conn streamer rest with
    | none => none
    | some next =>
      match ints[i]? with
      | none => none
      | some interceptor => some (wrapStream interceptor conn next)

/-- chainStreamClientInterceptors of package drcpclient.  NB: the source sets
n := len(d.unaryInts) — the length of the unary list — and then iterates
d.streamInts over i = n-1 .. 0, so the index list is the range of the unary
length over the stream slice; the closure evaluates to none (Go panic: index
out of range) when the unary list is longer than the stream list.  As in the
unary case the field is always set to a non-nil closure. -/
def DialOptions.chainStreamClientInterceptors (d : DialOptions σ κ) :
    DialOptions σ κ :=
  ⟨d.chainedUnaryInt, d.unaryInts,
    some (fun ctx rpc enc conn streamer s =>
      match buildStreamChain d.streamInts conn streamer
          (List.range d.unaryInts.length) with
      | none => none
      | some chained => some (chained ctx rpc enc s)),
    d.streamInts⟩

/-- The loop of newDialOptions applying each DialOption in order to the zero
value. -/
def applyOptions (opts : List (DialOption σ κ)) : DialOptions σ κ :=
  opts.foldl (fun options opt => opt options) (DialOptions.zero σ κ)

/-- newDialOptions: apply the options in order, then compile the unary chain,
then the stream chain. -/
def newDialOptions (opts : List (DialOption σ κ)) : DialOptions σ κ :=
  ((applyOptions opts).chainUnaryClientInterceptors).chainStreamClientInterceptors

/-- ClientConn of package drcpclient: the embedded underlying drpc.Conn plus
its DialOptions.  The conn handle type is fixed to Handle: interceptors
receive the identity of the value passed as the cc argument. -/
structure ClientConn (σ : Type) where
  conn : RawConn σ
  dopts : DialOptions σ Handle

/-- NewClientConnWithOptions: call the dialer; on error return it unchanged
with no connection; on success pair the connection with the compiled
newDialOptions. -/
def NewClientConnWithOptions (ctx : Ctx)
    (dialer : Ctx → σ → σ × Except Err (RawConn σ))
    (dialOpts : List (DialOption σ Handle)) (s : σ) :
    σ × Except Err (ClientConn σ) :=
  match dialer ctx s with
  | (s', Except.error e) => (s', Except.error e)
  | (s', Except.ok conn) =>
    (s', Except.ok (ClientConn.mk conn (newDialOptions dialOpts)))

/-- The successfully constructed wrapper (the value NewClientConnWithOptions
returns when the dialer succeeds). -/
def mkClientConn (conn : RawConn σ) (opts : List (DialOption σ Handle)) :
    ClientConn σ :=
  ClientConn.mk conn (newDialOptions opts)

/-- ClientConn.Invoke: build the terminal invoker from the embedded
connection; if the compiled unary chain is non-nil call it, passing the
wrapper itself (Handle.wrapper translates the receiver c) as the conn handle;
otherwise call the terminal invoker directly. -/
def ClientConn.Invoke (c : ClientConn σ) (ctx : Ctx) (rpc : Rpc) (enc : Enc)
    (inm : Msg) (s : σ) : σ × Option Err :=
  let invoker : UnaryInvoker σ :=
    fun ctx rpc enc inm s => c.conn.invoke ctx rpc enc inm s
  match c.dopts.chainedUnaryInt with
  | some f => f ctx rpc enc inm Handle.wrapper invoker s
  | none => invoker ctx rpc enc inm s

/-- ClientConn.NewStream: same splicing for the stream chain; the outer Option
is none when the chained closure panics (see chainStreamClientInterceptors). -/
def ClientConn.NewStream (c : ClientConn σ) (ctx : Ctx) (rpc : Rpc) (enc : Enc)
    (s : σ) : Option (σ × StreamRes) :=
  let streamer : Streamer σ :=
    fun ctx rpc enc s => c.conn.newStream ctx rpc enc s
  match c.dopts.chainedStreamInt with
  | some f => f ctx rpc enc Handle.wrapper streamer s
  | none => some (streamer ctx rpc enc s)

/-- Close, promoted from the embedded drpc.Conn by Go struct embedding. -/
def ClientConn.Close (c : ClientConn σ) : σ → σ × Option Err := c.conn.close

/-- Closed, promoted from the embedded drpc.Conn by Go struct embedding. -/
def ClientConn.Closed (c : ClientConn σ) : σ → σ × Bool := c.conn.closed

/-- Transport, promoted from the embedded drpc.Conn by Go struct embedding. -/
def ClientConn.Transport (c : ClientConn σ) : Nat := c.conn.transport

end DrpcClient

namespace DrpcInterceptors

/-! Variant B: packages drpcinterceptors and drcpclientconn (src/unnamed/part_001). -/

open Drpc

/-- UnaryInvoker of drpcinterceptors: func(ctx, rpc, in, out, enc) error (note
the argument order differs from variant A; the out pointer is state). -/
abbrev UnaryInvoker (σ : Type) := Ctx → Rpc → Msg → Enc → σ → σ × Option Err

/-- UnaryClientInterceptor of drpcinterceptors:
func(ctx, rpc, in, out, cc, enc, next) error. -/
abbrev UnaryClientInterceptor (σ κ : Type) :=
  Ctx → Rpc → Msg → κ → Enc → UnaryInvoker σ → σ → σ × Option Err

/-- Streamer of drpcinterceptors: func(ctx, method) (drpc.Stream, error); the
encoding is captured by the terminal closure, not passed along the chain. -/
abbrev Streamer (σ : Type) := Ctx → Rpc → σ → σ × StreamRes

/-- StreamClientInterceptor of drpcinterceptors:
func(ctx, method, conn, streamer) (drpc.Stream, error). -/
abbrev StreamClientInterceptor (σ κ : Type) :=
  Ctx → Rpc → κ → Streamer σ → σ → σ × StreamRes

/-- DialOptions of drpcinterceptors: exported compiled fields UnaryInt and
StreamInt plus the two accumulated lists. -/
structure DialOptions (σ κ : Type) where
  UnaryInt : Option (UnaryClientInterceptor σ κ)
  unaryInts : List (UnaryClientInterceptor σ κ)
  StreamInt : Option (StreamClientInterceptor σ κ)
  streamInts : List (StreamClientInterceptor σ κ)

/-- The zero DialOptions value of the composite literal in NewDialOptions. -/
def DialOptions.zero (σ κ : Type) : DialOptions σ κ := ⟨none, [], none, []⟩

/-- DialOption: a configuration mutator applied to a DialOptions value. -/
abbrev DialOption (σ κ : Type) := DialOptions σ κ → DialOptions σ κ

/-- WithChainUnaryInterceptor appends to the unary list. -/
def WithChainUnaryInterceptor (ints : List (UnaryClientInterceptor σ κ)) :
    DialOption σ κ :=
  fun opt => ⟨opt.UnaryInt, opt.unaryInts ++ ints, opt.StreamInt, opt.streamInts⟩

/-- WithChainStreamInterceptor appends to the stream list. -/
def WithChainStreamInterceptor (ints : List (StreamClientInterceptor σ κ)) :
    DialOption σ κ :=
  fun opt => ⟨opt.UnaryInt, opt.unaryInts, opt.StreamInt, opt.streamInts ++ ints⟩

/-- NewDialOptions: apply the options in order to the zero value.  Unlike
variant A it does not compile either chain. -/
def NewDialOptions (opts : List (DialOption σ κ)) : DialOptions σ κ :=
  opts.foldl (fun options opt => opt options) (DialOptions.zero σ κ)

/-- The loop of the default branch of ChainUnaryClientInterceptors, iterating
i = n-1 down to 0 over the whole unary list: a right fold. -/
def chainUnaryFoldB (ints : List (UnaryClientInterceptor σ κ)) (conn : κ)
    (invoker : UnaryInvoker σ) : UnaryInvoker σ :=
  List.foldr
    (fun interceptor chained =>
      fun ctx rpc inm enc => interceptor ctx rpc inm conn enc chained)
    invoker ints

/-- ChainUnaryClientInterceptors of drpcinterceptors: switch on the length of
the unary list — zero sets UnaryInt to nil, one installs that interceptor
itself, otherwise the chaining closure. -/
def DialOptions.ChainUnaryClientInterceptors (d : DialOptions σ κ) :
    DialOptions σ κ :=
  match d.unaryInts with
  | [] => ⟨none, d.unaryInts, d.StreamInt, d.streamInts⟩
  | [interceptor] => ⟨some interceptor, d.unaryInts, d.StreamInt, d.streamInts⟩
  | _ :: _ :: _ =>
    ⟨some (fun ctx rpc inm conn enc invoker =>
        chainUnaryFoldB d.unaryInts conn invoker ctx rpc inm enc),
      d.unaryInts, d.StreamInt, d.streamInts⟩

/-- The loop of the default branch of ChainStreamClientInterceptors
(n := len(d.streamInts) here, unlike variant A): a right fold over the stream
list. -/
def chainStreamFoldB (ints : List (StreamClientInterceptor σ κ)) (conn : κ)
    (streamer : Streamer σ) : Streamer σ :=
  List.foldr
    (fun interceptor chained =>
      fun ctx rpc => interceptor ctx rpc conn chained)
    streamer ints

/-- ChainStreamClientInterceptors of drpcinterceptors: switch on the length of
the stream list — zero sets StreamInt to nil, one installs that interceptor
itself, otherwise the chaining closure. -/
def DialOptions.ChainStreamClientInterceptors (d : DialOptions σ κ) :
    DialOptions σ κ :=
  match d.streamInts with
  | [] => ⟨d.UnaryInt, d.unaryInts, none, d.streamInts⟩
  | [interceptor] => ⟨d.UnaryInt, d.unaryInts, some interceptor, d.streamInts⟩
  | _ :: _ :: _ =>
    ⟨d.UnaryInt, d.unaryInts,
      some (fun ctx rpc conn streamer =>
        chainStreamFoldB d.streamInts conn streamer ctx rpc),
      d.streamInts⟩

/-- ClientConn of package drcpclientconn: embedded underlying drpc.Conn plus a
DialOptions value held by value. -/
structure ClientConn (σ : Type) where
  conn : RawConn σ
  dopts : DialOptions σ Handle

/-- initInterceptors: compile the unary chain then the stream chain of the
wrapper's own DialOptions copy. -/
def ClientConn.initInterceptors (c : ClientConn σ) : ClientConn σ :=
  ClientConn.mk c.conn
    ((c.dopts.ChainUnaryClientInterceptors).ChainStreamClientInterceptors)

/-- NewClientConnWithOptions of drcpclientconn: call the connection supplier;
on error return it unchanged with no connection; on success pair the
connection with the given DialOptions and run initInterceptors. -/
def NewClientConnWithOptions (dopts : DialOptions σ Handle)
    (connSupplier : σ → σ × Except Err (RawConn σ)) (s : σ) :
    σ × Except Err (ClientConn σ) :=
  match connSupplier s with
  | (s', Except.error e) => (s', Except.error e)
  | (s', Except.ok conn) =>
    (s', Except.ok ((ClientConn.mk conn dopts).initInterceptors))

/-- The successfully constructed variant-B wrapper (the value
NewClientConnWithOptions returns when the supplier succeeds). -/
def mkConn (conn : RawConn σ) (opts : List (DialOption σ Handle)) :
    ClientConn σ :=
  (ClientConn.mk conn (NewDialOptions opts)).initInterceptors

/-- ClientConn.Invoke of drcpclientconn: the terminal next closure forwards to
the embedded connection; if UnaryInt is non-nil call it, passing the wrapper
itself as the cc handle; otherwise call next directly. -/
def ClientConn.Invoke (c : ClientConn σ) (ctx : Ctx) (rpc : Rpc) (enc : Enc)
    (inm : Msg) (s : σ) : σ × Option Err :=
  let next : UnaryInvoker σ :=
    fun ctx rpc inm enc s => c.conn.invoke ctx rpc enc inm s
  match c.dopts.UnaryInt with
  | some f => f ctx rpc inm Handle.wrapper enc next s
  | none => next ctx rpc inm enc s

/-- ClientConn.NewStream of drcpclientconn: the terminal next closure captures
the encoding and forwards to the embedded connection; if StreamInt is non-nil
call it with the wrapper as the conn handle, otherwise call next directly. -/
def ClientConn.NewStream (c : ClientConn σ) (ctx : Ctx) (rpc : Rpc) (enc : Enc)
    (s : σ) : σ × StreamRes :=
  let next : Streamer σ :=
    fun ctx rpc s => c.conn.newStream ctx rpc enc s
  match c.dopts.StreamInt with
  | some f => f ctx rpc Handle.wrapper next s
  | none => next ctx rpc s

/-- Close, promoted from the embedded drpc.Conn by Go struct embedding. -/
def ClientConn.Close (c : ClientConn σ) : σ → σ × Option Err := c.conn.close

/-- Closed, promoted from the embedded drpc.Conn by Go struct embedding. -/
def ClientConn.Closed (c : ClientConn σ) : σ → σ × Bool := c.conn.closed

/-- Transport, promoted from the embedded drpc.Conn by Go struct embedding. -/
def ClientConn.Transport (c : ClientConn σ) : Nat := c.conn.transport

end DrpcInterceptors

namespace Drpc

/-! Concrete test material used by the theorems, mirroring the recording
interceptors of the repository's tests. -/

/-- A connection whose unary invoke returns the fixed error e and whose stream
open returns the fixed result res, leaving the trace state untouched (all
effects of the real connection are outside the recorded trace). -/
def pureConn (e : Option Err) (res : StreamRes) : RawConn Tr :=
  ⟨fun _ _ _ _ s => (s, e),
   fun _ _ _ s => (s, res),
   fun s => (s, none),
   fun s => (s, false),
   0⟩

/-- Variant-A recording unary interceptor with label i: append before i, call
next, append after i, return the error next returned (the interceptor1 and
interceptor2 of the repository's test). -/
def recorder (i : Nat) : DrpcClient.UnaryClientInterceptor Tr Handle :=
  fun ctx rpc enc inm _conn next s =>
    let p := next ctx rpc enc inm (s ++ [Ev.before i])
    (p.1 ++ [Ev.after i], p.2)

/-- Variant-A stream interceptor with label i recording its entry only, then
returning whatever the next streamer produces. -/
def streamRec (i : Nat) : DrpcClient.StreamClientInterceptor Tr Handle :=
  fun ctx rpc enc _conn next s => next ctx rpc enc (s ++ [Ev.before i])

/-- Variant-A unary interceptor recording the conn handle it is given, then
deferring to next. -/
def handleRec : DrpcClient.UnaryClientInterceptor Tr Handle :=
  fun ctx rpc enc inm conn next s => next ctx rpc enc inm (s ++ [Ev.handle conn])

/-- Variant-A stream interceptor recording the conn handle it is given, then
deferring to next. -/
def handleRecS : DrpcClient.StreamClientInterceptor Tr Handle :=
  fun ctx rpc enc conn next s => next ctx rpc enc (s ++ [Ev.handle conn])

/-- Variant-B recording unary interceptor with label i. -/
def recorderB (i : Nat) : DrpcInterceptors.UnaryClientInterceptor Tr Handle :=
  fun ctx rpc inm _conn enc next s =>
    let p := next ctx rpc inm enc (s ++ [Ev.before i])
    (p.1 ++ [Ev.after i], p.2)

/-- Variant-B unary interceptor recording the conn handle it is given. -/
def handleRecB : DrpcInterceptors.UnaryClientInterceptor Tr Handle :=
  fun ctx rpc inm conn enc next s => next ctx rpc inm enc (s ++ [Ev.handle conn])

/-- Variant-B stream interceptor recording the conn handle it is given. -/
def handleRecSB : DrpcInterceptors.StreamClientInterceptor Tr Handle :=
  fun ctx rpc conn next s => next ctx rpc (s ++ [Ev.handle conn])

end Drpc

namespace Drpc

/-- k nested layers of the handle-recording stream interceptor around a base
streamer, as built by the variant-A stream chain loop. -/
def wrapIterS : Nat → Handle → DrpcClient.Streamer Tr → DrpcClient.Streamer Tr
  | 0, _, base => base
  | k + 1, conn, base => DrpcClient.wrapStream handleRecS conn (wrapIterS k conn base)

end Drpc

namespace Drpc

/-! Helper lemmas about the chain folds, shared by the claim theorems. -/

theorem getElem?_replicate_of_lt {α : Type} (a : α) :
    ∀ (n j : Nat), j < n → (List.replicate n a)[j]? = some a := by
  intro n
  induction n with
  | zero => intro j h; omega
  | succ n ih =>
    intro j h
    cases j with
    | zero => simp [List.replicate_succ]
    | succ j => simpa [List.replicate_succ] using ih j (by omega)

theorem chainUnaryFold_recorder (ls : List Nat) (conn : Handle) (e : Option Err)
    (ctx : Ctx) (rpc : Rpc) (enc : Enc) (inm : Msg) (s : Tr) :
    DrpcClient.chainUnaryFold (ls.map recorder) conn (fun _ _ _ _ s => (s, e))
        ctx rpc enc inm s
      = (s ++ ls.map Ev.before ++ ls.reverse.map Ev.after, e) := by
  induction ls generalizing s with
  | nil => simp [DrpcClient.chainUnaryFold]
  | cons l ls ih =>
    have h := ih (s ++ [Ev.before l])
    simp only [DrpcClient.chainUnaryFold, List.map_cons, List.foldr_cons] at h ⊢
    simp [recorder, h, List.append_assoc]

theorem chainUnaryFoldB_recorder (ls : List Nat) (conn : Handle) (e : Option Err)
    (ctx : Ctx) (rpc : Rpc) (inm : Msg) (enc : Enc) (s : Tr) :
    DrpcInterceptors.chainUnaryFoldB (ls.map recorderB) conn
        (fun _ _ _ _ s => (s, e)) ctx rpc inm enc s
      = (s ++ ls.map Ev.before ++ ls.reverse.map Ev.after, e) := by
  induction ls generalizing s with
  | nil => simp [DrpcInterceptors.chainUnaryFoldB]
  | cons l ls ih =>
    have h := ih (s ++ [Ev.before l])
    simp only [DrpcInterceptors.chainUnaryFoldB, List.map_cons,
      List.foldr_cons] at h ⊢
    simp [recorderB, h, List.append_assoc]

theorem chainUnaryFold_handleRec (n : Nat) (conn : Handle) (e : Option Err)
    (ctx : Ctx) (rpc : Rpc) (enc : Enc) (inm : Msg) (s : Tr) :
    DrpcClient.chainUnaryFold (List.replicate n handleRec) conn
        (fun _ _ _ _ s => (s, e)) ctx rpc enc inm s
      = (s ++ List.replicate n (Ev.handle conn), e) := by
  induction n generalizing s with
  | zero => simp [DrpcClient.chainUnaryFold]
  | succ n ih =>
    have h := ih (s ++ [Ev.handle conn])
    simp only [List.replicate_succ, DrpcClient.chainUnaryFold,
      List.foldr_cons] at h ⊢
    simp [handleRec, h, List.append_assoc]

theorem wrapIterS_apply (k : Nat) (conn : Handle) (base : DrpcClient.Streamer Tr)
    (ctx : Ctx) (rpc : Rpc) (enc : Enc) (s : Tr) :
    wrapIterS k conn base ctx rpc enc s
      = base ctx rpc enc (s ++ List.replicate k (Ev.handle conn)) := by
  induction k generalizing s with
  | zero => simp [wrapIterS]
  | succ k ih =>
    have h := ih (s ++ [Ev.handle conn])
    simp only [wrapIterS, DrpcClient.wrapStream] at h ⊢
    simp [handleRecS, h, List.replicate_succ, List.append_assoc]

theorem buildStreamChain_handleRecS (conn : Handle)
    (base : DrpcClient.Streamer Tr) (n : Nat) :
    ∀ (idxs : List Nat), (∀ j ∈ idxs, j < n) →
      DrpcClient.buildStreamChain (List.replicate n handleRecS) conn base idxs
        = some (wrapIterS idxs.length conn base) := by
  intro idxs
  induction idxs with
  | nil => intro _; rfl
  | cons j rest ih =>
    intro h
    have hj : j < n := h j (List.mem_cons_self j rest)
    have hrest := ih (fun i hi => h i (List.mem_cons_of_mem j hi))
    simp only [DrpcClient.buildStreamChain, hrest,
      getElem?_replicate_of_lt handleRecS n j hj, List.length_cons]
    rfl

theorem chainUnaryFoldB_handleRecB (n : Nat) (conn : Handle) (e : Option Err)
    (ctx : Ctx) (rpc : Rpc) (inm : Msg) (enc : Enc) (s : Tr) :
    DrpcInterceptors.chainUnaryFoldB (List.replicate n handleRecB) conn
        (fun _ _ _ _ s => (s, e)) ctx rpc inm enc s
      = (s ++ List.replicate n (Ev.handle conn), e) := by
  induction n generalizing s with
  | zero => simp [DrpcInterceptors.chainUnaryFoldB]
  | succ n ih =>
    have h := ih (s ++ [Ev.handle conn])
    simp only [List.replicate_succ, DrpcInterceptors.chainUnaryFoldB,
      List.foldr_cons] at h ⊢
    simp [handleRecB, h, List.append_assoc]

theorem chainStreamFoldB_handleRecSB (n : Nat) (conn : Handle) (res : StreamRes)
    (ctx : Ctx) (rpc : Rpc) (s : Tr) :
    DrpcInterceptors.chainStreamFoldB (List.replicate n handleRecSB) conn
        (fun _ _ s => (s, res)) ctx rpc s
      = (s ++ List.replicate n (Ev.handle conn), res) := by
  induction n generalizing s with
  | zero => simp [DrpcInterceptors.chainStreamFoldB]
  | succ n ih =>
    have h := ih (s ++ [Ev.handle conn])
    simp only [List.replicate_succ, DrpcInterceptors.chainStreamFoldB,
      List.foldr_cons] at h ⊢
    simp [handleRecSB, h, List.append_assoc]

end Drpc

namespace Drpc

/-! Claim theorems. -/

/-- C1: for every sequence of unary interceptors that each record before, call
their next continuation, and record after, a single Invoke through the
compiled unary chain (in either variant) records all befores in configured
order followed by all afters in exactly the reverse order, and this holds for
every terminal outcome e, including errors. -/
theorem c1_unary_chain_entry_exit_order (ls : List Nat) (hlen : 2 ≤ ls.length)
    (e : Option Err) (ctx : Ctx) (rpc : Rpc) (enc : Enc) (inm : Msg) (s : Tr) :
    (DrpcClient.mkClientConn (pureConn e (none, none))
        [DrpcClient.WithChainUnaryInterceptor (ls.map recorder)]).Invoke
        ctx rpc enc inm s
      = (s ++ ls.map Ev.before ++ ls.reverse.map Ev.after, e)
    ∧ (DrpcInterceptors.mkConn (pureConn e (none, none))
        [DrpcInterceptors.WithChainUnaryInterceptor (ls.map recorderB)]).Invoke
        ctx rpc enc inm s
      = (s ++ ls.map Ev.before ++ ls.reverse.map Ev.after, e) := by
  rcases ls with _ | ⟨a, _ | ⟨b, rest⟩⟩
  · simp at hlen
  · simp at hlen
  · constructor
    · exact chainUnaryFold_recorder (a :: b :: rest) Handle.wrapper e ctx rpc enc inm s
    · exact chainUnaryFoldB_recorder (a :: b :: rest) Handle.wrapper e ctx rpc inm enc s

/-- C1 witness: the two-interceptor instance of the ordering theorem at a
concrete failing terminal. -/
theorem c1_unary_chain_entry_exit_order_witness :
    2 ≤ ([1, 2] : List Nat).length ∧
    ((DrpcClient.mkClientConn (pureConn (some 7) (none, none))
        [DrpcClient.WithChainUnaryInterceptor ([1, 2].map recorder)]).Invoke
        0 "TestMethod" 0 0 []
      = ([] ++ [1, 2].map Ev.before ++ ([1, 2] : List Nat).reverse.map Ev.after, some 7)
    ∧ (DrpcInterceptors.mkConn (pureConn (some 7) (none, none))
        [DrpcInterceptors.WithChainUnaryInterceptor ([1, 2].map recorderB)]).Invoke
        0 "TestMethod" 0 0 []
      = ([] ++ [1, 2].map Ev.before ++ ([1, 2] : List Nat).reverse.map Ev.after, some 7)) :=
  ⟨by decide,
    c1_unary_chain_entry_exit_order [1, 2] (by decide) (some 7) 0 "TestMethod" 0 0 []⟩

/-- C2 is falsified by the drcpclient code: chainStreamClientInterceptors
takes n from the unary list, so with no unary interceptor and one stream
interceptor the compiled stream chain invokes no stream interceptor at all
(trace stays empty), and with one unary interceptor and no stream interceptor
every NewStream call indexes streamInts out of range (none = Go panic). -/
theorem c2_stream_chain_reads_unary_length :
    (DrpcClient.mkClientConn (pureConn none (some 5, none))
        [DrpcClient.WithChainStreamInterceptor [streamRec 1]]).NewStream
        0 "TestMethod" 0 []
      = some ([], (some 5, none))
    ∧ (DrpcClient.mkClientConn (pureConn none (some 5, none))
        [DrpcClient.WithChainUnaryInterceptor [recorder 1]]).NewStream
        0 "TestMethod" 0 []
      = none := by
  exact ⟨rfl, rfl⟩

/-- C3 is falsified by the drcpclient code: after newDialOptions with zero
interceptors both compiled fields are non-nil closures (against the claim and
the functions' own doc comments), while the drpcinterceptors variant does set
both fields to nil as claimed. -/
theorem c3_zero_interceptors_chain_fields :
    ((DrpcClient.newDialOptions
        ([] : List (DrpcClient.DialOption Tr Handle))).chainedUnaryInt).isSome = true
    ∧ ((DrpcClient.newDialOptions
        ([] : List (DrpcClient.DialOption Tr Handle))).chainedStreamInt).isSome = true
    ∧ ((DrpcInterceptors.NewDialOptions
        ([] : List (DrpcInterceptors.DialOption Tr Handle))).ChainUnaryClientInterceptors).UnaryInt
      = none
    ∧ (((DrpcInterceptors.NewDialOptions
        ([] : List (DrpcInterceptors.DialOption Tr Handle))).ChainUnaryClientInterceptors).ChainStreamClientInterceptors).StreamInt
      = none := by
  exact ⟨rfl, rfl, rfl, rfl⟩

end Drpc

namespace Drpc

/-- C4 counterexample: constructing a DialOptions value in the
drpcinterceptors variant (NewDialOptions applied to a configuration option
carrying an interceptor) leaves both compiled fields nil, so DialOptions
construction does not compile the chains there. -/
theorem c4_counterexample_construction_does_not_compile :
    (DrpcInterceptors.NewDialOptions
        [DrpcInterceptors.WithChainUnaryInterceptor [recorderB 1]]).UnaryInt = none
    ∧ (DrpcInterceptors.NewDialOptions
        [DrpcInterceptors.WithChainStreamInterceptor [handleRecSB]]).StreamInt = none := by
  exact ⟨rfl, rfl⟩

/-- C4 (amended): in the drcpclient variant newDialOptions compiles both
chains at DialOptions construction, and the compiled fields are extensionally
determined by the accumulated interceptor sequences; in the drpcinterceptors
variant NewDialOptions built from the two configuration options leaves both
compiled fields nil, and they are compiled during wrapper construction, whose
result is exactly initInterceptors of the paired options. -/
theorem c4_compiled_fields_determined :
    (∀ (σ κ : Type) (opts : List (DrpcClient.DialOption σ κ)) (ctx : Ctx)
        (rpc : Rpc) (enc : Enc) (inm : Msg) (conn : κ)
        (invoker : DrpcClient.UnaryInvoker σ) (s : σ),
      ((DrpcClient.newDialOptions opts).chainedUnaryInt).map
          (fun f => f ctx rpc enc inm conn invoker s)
        = some (DrpcClient.chainUnaryFold (DrpcClient.applyOptions opts).unaryInts
            conn invoker ctx rpc enc inm s))
    ∧ (∀ (σ κ : Type) (opts : List (DrpcClient.DialOption σ κ)) (ctx : Ctx)
        (rpc : Rpc) (enc : Enc) (conn : κ) (streamer : DrpcClient.Streamer σ)
        (s : σ),
      ((DrpcClient.newDialOptions opts).chainedStreamInt).map
          (fun f => f ctx rpc enc conn streamer s)
        = some (Option.map (fun chained => chained ctx rpc enc s)
            (DrpcClient.buildStreamChain (DrpcClient.applyOptions opts).streamInts
              conn streamer
              (List.range (DrpcClient.applyOptions opts).unaryInts.length))))
    ∧ (∀ (σ κ : Type)
        (cs : List (List (DrpcInterceptors.UnaryClientInterceptor σ κ)
          ⊕ List (DrpcInterceptors.StreamClientInterceptor σ κ))),
      (DrpcInterceptors.NewDialOptions
          (cs.map (Sum.elim DrpcInterceptors.WithChainUnaryInterceptor
            DrpcInterceptors.WithChainStreamInterceptor))).UnaryInt = none
      ∧ (DrpcInterceptors.NewDialOptions
          (cs.map (Sum.elim DrpcInterceptors.WithChainUnaryInterceptor
            DrpcInterceptors.WithChainStreamInterceptor))).StreamInt = none)
    ∧ (∀ (σ : Type) (dopts : DrpcInterceptors.DialOptions σ Handle)
        (connSupplier : σ → σ × Except Err (RawConn σ)) (s s' : σ)
        (conn : RawConn σ),
      connSupplier s = (s', Except.ok conn) →
        DrpcInterceptors.NewClientConnWithOptions dopts connSupplier s
          = (s', Except.ok
              ((DrpcInterceptors.ClientConn.mk conn dopts).initInterceptors))) := by
  refine ⟨?_, ?_, ?_, ?_⟩
  · intro σ κ opts ctx rpc enc inm conn invoker s
    rfl
  · intro σ κ opts ctx rpc enc conn streamer s
    show some _ = _
    cases h : DrpcClient.buildStreamChain (DrpcClient.applyOptions opts).streamInts
        conn streamer (List.range (DrpcClient.applyOptions opts).unaryInts.length) <;>
      simp [DrpcClient.newDialOptions, DrpcClient.DialOptions.chainUnaryClientInterceptors,
        DrpcClient.DialOptions.chainStreamClientInterceptors, h]
  · intro σ κ cs
    have key : ∀ (cs : List (List (DrpcInterceptors.UnaryClientInterceptor σ κ)
          ⊕ List (DrpcInterceptors.StreamClientInterceptor σ κ)))
        (d : DrpcInterceptors.DialOptions σ κ),
        ((cs.map (Sum.elim DrpcInterceptors.WithChainUnaryInterceptor
            DrpcInterceptors.WithChainStreamInterceptor)).foldl
          (fun options opt => opt options) d).UnaryInt = d.UnaryInt
        ∧ ((cs.map (Sum.elim DrpcInterceptors.WithChainUnaryInterceptor
            DrpcInterceptors.WithChainStreamInterceptor)).foldl
          (fun options opt => opt options) d).StreamInt = d.StreamInt := by
      intro cs
      induction cs with
      | nil => intro d; exact ⟨rfl, rfl⟩
      | cons c rest ih =>
        intro d
        cases c with
        | inl us =>
          simpa [DrpcInterceptors.WithChainUnaryInterceptor]
            using ih (DrpcInterceptors.WithChainUnaryInterceptor us d)
        | inr ss =>
          simpa [DrpcInterceptors.WithChainStreamInterceptor]
            using ih (DrpcInterceptors.WithChainStreamInterceptor ss d)
    exact key cs (DrpcInterceptors.DialOptions.zero σ κ)
  · intro σ dopts connSupplier s s' conn h
    simp [DrpcInterceptors.NewClientConnWithOptions, h]

/-- C4 witness: the wrapper-construction clause applied to a concrete
always-succeeding connection supplier. -/
theorem c4_compiled_fields_determined_witness :
    DrpcInterceptors.NewClientConnWithOptions
        (DrpcInterceptors.DialOptions.zero Tr Handle)
        (fun s => (s, Except.ok (pureConn none (none, none)))) []
      = ([], Except.ok
          ((DrpcInterceptors.ClientConn.mk (pureConn none (none, none))
            (DrpcInterceptors.DialOptions.zero Tr Handle)).initInterceptors)) :=
  c4_compiled_fields_determined.2.2.2 Tr
    (DrpcInterceptors.DialOptions.zero Tr Handle)
    (fun s => (s, Except.ok (pureConn none (none, none)))) [] []
    (pureConn none (none, none)) rfl

end Drpc

namespace Drpc

/-- C5 is falsified for NewStream by the drcpclient code: with one
error-propagating unary interceptor configured, no stream interceptor, and a
terminal streamer that fails with error 7, NewStream evaluates to none (a Go
index-out-of-range panic in the stream chain) instead of returning error 7;
the unary path of the same wrapper does return the terminal error 9
unchanged through the propagating interceptor. -/
theorem c5_newstream_panics_instead_of_propagating :
    (DrpcClient.mkClientConn (pureConn (some 9) (none, some 7))
        [DrpcClient.WithChainUnaryInterceptor [recorder 1]]).NewStream
        0 "TestMethod" 0 []
      = none
    ∧ (DrpcClient.mkClientConn (pureConn (some 9) (none, some 7))
        [DrpcClient.WithChainUnaryInterceptor [recorder 1]]).Invoke
        0 "TestMethod" 0 0 []
      = ([Ev.before 1, Ev.after 1], some 9) := by
  exact ⟨rfl, rfl⟩

/-- C6: when the connection provider fails at construction time, both
variants return exactly the provider's error with no connection object, and
the returned state is exactly the provider's output state, so no interceptor
has run. -/
theorem c6_provider_error_is_fatal (σ : Type)
    (dialer : Ctx → σ → σ × Except Err (RawConn σ))
    (opts : List (DrpcClient.DialOption σ Handle)) (ctx : Ctx) (s s' : σ)
    (e : Err) (h : dialer ctx s = (s', Except.error e)) :
    DrpcClient.NewClientConnWithOptions ctx dialer opts s = (s', Except.error e)
    ∧ ∀ (dopts : DrpcInterceptors.DialOptions σ Handle)
        (connSupplier : σ → σ × Except Err (RawConn σ)) (t t' : σ) (e2 : Err),
      connSupplier t = (t', Except.error e2) →
        DrpcInterceptors.NewClientConnWithOptions dopts connSupplier t
          = (t', Except.error e2) := by
  constructor
  · simp [DrpcClient.NewClientConnWithOptions, h]
  · intro dopts connSupplier t t' e2 h2
    simp [DrpcInterceptors.NewClientConnWithOptions, h2]

/-- C6 witness: a dialer failing with error 3 applied at the empty trace. -/
theorem c6_provider_error_is_fatal_witness :
    DrpcClient.NewClientConnWithOptions 0 (fun _ s => (s, Except.error 3)) []
        ([] : Tr)
      = ([], Except.error 3) :=
  (c6_provider_error_is_fatal Tr (fun _ s => (s, Except.error 3)) [] 0 [] [] 3
    rfl).1

end Drpc

namespace Drpc

/-- C7: with exactly one configured unary interceptor, invoking the drcpclient
compiled chain through the wrapper is the same as calling that interceptor
directly with the wrapper handle and the terminal invoker as next, and the
drpcinterceptors compiler installs the single interceptor itself as the
compiled field. -/
theorem c7_single_interceptor_passthrough (σ : Type) (conn : RawConn σ)
    (interceptor : DrpcClient.UnaryClientInterceptor σ Handle) (ctx : Ctx)
    (rpc : Rpc) (enc : Enc) (inm : Msg) (s : σ) :
    (DrpcClient.mkClientConn conn
        [DrpcClient.WithChainUnaryInterceptor [interceptor]]).Invoke
        ctx rpc enc inm s
      = interceptor ctx rpc enc inm Handle.wrapper
          (fun ctx rpc enc inm s => conn.invoke ctx rpc enc inm s) s
    ∧ ∀ (κ : Type) (single : DrpcInterceptors.UnaryClientInterceptor σ κ)
        (u0 : Option (DrpcInterceptors.UnaryClientInterceptor σ κ))
        (st0 : Option (DrpcInterceptors.StreamClientInterceptor σ κ))
        (ss : List (DrpcInterceptors.StreamClientInterceptor σ κ)),
      ((DrpcInterceptors.DialOptions.mk u0 [single] st0 ss).ChainUnaryClientInterceptors).UnaryInt
        = some single := by
  exact ⟨rfl, fun κ single u0 st0 ss => rfl⟩

/-- C8: with zero configured interceptors, Invoke and NewStream of both
wrapper variants return exactly what the underlying connection's native
operations return on the same arguments and state, for every outcome. -/
theorem c8_zero_interceptors_bit_identical (σ : Type) (conn : RawConn σ)
    (ctx : Ctx) (rpc : Rpc) (enc : Enc) (inm : Msg) (s : σ) :
    (DrpcClient.mkClientConn conn []).Invoke ctx rpc enc inm s
      = conn.invoke ctx rpc enc inm s
    ∧ (DrpcClient.mkClientConn conn []).NewStream ctx rpc enc s
      = some (conn.newStream ctx rpc enc s)
    ∧ (DrpcInterceptors.mkConn conn []).Invoke ctx rpc enc inm s
      = conn.invoke ctx rpc enc inm s
    ∧ (DrpcInterceptors.mkConn conn []).NewStream ctx rpc enc s
      = conn.newStream ctx rpc enc s := by
  exact ⟨rfl, rfl, rfl, rfl⟩

/-- C10: the rest of the connection surface (Close, Closed, Transport) is
delegated unchanged to the embedded underlying connection in both variants,
and its result does not depend on the configured DialOptions, so no
interceptor runs for those operations. -/
theorem c10_frame_other_operations_delegate (σ : Type) (conn : RawConn σ)
    (d d' : DrpcClient.DialOptions σ Handle)
    (opts : List (DrpcClient.DialOption σ Handle))
    (db : DrpcInterceptors.DialOptions σ Handle) (s : σ) :
    (DrpcClient.ClientConn.mk conn d).Close s = conn.close s
    ∧ (DrpcClient.ClientConn.mk conn d).Closed s = conn.closed s
    ∧ (DrpcClient.ClientConn.mk conn d).Transport = conn.transport
    ∧ (DrpcClient.mkClientConn conn opts).Close s = conn.close s
    ∧ (DrpcClient.ClientConn.mk conn d).Close s
        = (DrpcClient.ClientConn.mk conn d').Close s
    ∧ (DrpcInterceptors.ClientConn.mk conn db).Close s = conn.close s
    ∧ (DrpcInterceptors.ClientConn.mk conn db).Closed s = conn.closed s
    ∧ (DrpcInterceptors.ClientConn.mk conn db).Transport = conn.transport := by
  exact ⟨rfl, rfl, rfl, rfl, rfl, rfl, rfl, rfl⟩

end Drpc

namespace Drpc

/-- C9: on every Invoke and NewStream call through a compiled chain, in both
variants, every interceptor in the chain receives the wrapper itself
(Handle.wrapper, the translation of the receiver c passed at the call site)
as its connection-handle argument — the recorded handles are wrapper
throughout and never Handle.raw. -/
theorem c9_interceptors_receive_wrapper_handle (n : Nat) (e : Option Err)
    (res : StreamRes) (ctx : Ctx) (rpc : Rpc) (enc : Enc) (inm : Msg)
    (s : Tr) :
    (DrpcClient.mkClientConn (pureConn e res)
        [DrpcClient.WithChainUnaryInterceptor (List.replicate n handleRec)]).Invoke
        ctx rpc enc inm s
      = (s ++ List.replicate n (Ev.handle Handle.wrapper), e)
    ∧ (DrpcClient.mkClientConn (pureConn e res)
        [DrpcClient.WithChainUnaryInterceptor (List.replicate n handleRec),
         DrpcClient.WithChainStreamInterceptor (List.replicate n handleRecS)]).NewStream
        ctx rpc enc s
      = some ((s ++ List.replicate n (Ev.handle Handle.wrapper), res))
    ∧ (DrpcInterceptors.mkConn (pureConn e res)
        [DrpcInterceptors.WithChainUnaryInterceptor (List.replicate n handleRecB)]).Invoke
        ctx rpc enc inm s
      = (s ++ List.replicate n (Ev.handle Handle.wrapper), e)
    ∧ (DrpcInterceptors.mkConn (pureConn e res)
        [DrpcInterceptors.WithChainStreamInterceptor (List.replicate n handleRecSB)]).NewStream
        ctx rpc enc s
      = (s ++ List.replicate n (Ev.handle Handle.wrapper), res) := by
  refine ⟨?_, ?_, ?_, ?_⟩
  · exact chainUnaryFold_handleRec n Handle.wrapper e ctx rpc enc inm s
  · have hb := buildStreamChain_handleRecS Handle.wrapper
      (fun ctx rpc enc s => (pureConn e res).newStream ctx rpc enc s) n
      (List.range n) (fun j hj => List.mem_range.mp hj)
    simp only [DrpcClient.ClientConn.NewStream, DrpcClient.mkClientConn,
      DrpcClient.newDialOptions, DrpcClient.applyOptions,
      DrpcClient.DialOptions.zero, DrpcClient.WithChainUnaryInterceptor,
      DrpcClient.WithChainStreamInterceptor,
      DrpcClient.DialOptions.chainUnaryClientInterceptors,
      DrpcClient.DialOptions.chainStreamClientInterceptors,
      List.foldl_cons, List.foldl_nil, List.nil_append, List.length_replicate,
      hb]
    simp [wrapIterS_apply, pureConn]
  · rcases n with _ | _ | m
    · simp [DrpcInterceptors.mkConn, DrpcInterceptors.NewDialOptions,
        DrpcInterceptors.DialOptions.zero, DrpcInterceptors.WithChainUnaryInterceptor,
        DrpcInterceptors.ClientConn.initInterceptors,
        DrpcInterceptors.DialOptions.ChainUnaryClientInterceptors,
        DrpcInterceptors.DialOptions.ChainStreamClientInterceptors,
        DrpcInterceptors.ClientConn.Invoke, pureConn]
    · rfl
    · exact chainUnaryFoldB_handleRecB (m + 2) Handle.wrapper e ctx rpc inm enc s
  · rcases n with _ | _ | m
    · simp [DrpcInterceptors.mkConn, DrpcInterceptors.NewDialOptions,
        DrpcInterceptors.DialOptions.zero, DrpcInterceptors.WithChainStreamInterceptor,
        DrpcInterceptors.ClientConn.initInterceptors,
        DrpcInterceptors.DialOptions.ChainUnaryClientInterceptors,
        DrpcInterceptors.DialOptions.ChainStreamClientInterceptors,
        DrpcInterceptors.ClientConn.NewStream, pureConn]
    · rfl
    · exact chainStreamFoldB_handleRecSB (m + 2) Handle.wrapper res ctx rpc s

end Drpc
